import Mathlib

/-!
Verification of the push-notification delivery subsystem of the
createApp backend: push-token registration (schema in
`src/models/Notification/pushToken.model.js`), the notification record
lifecycle (schema in `src/models/Notification/notification.model.js`),
and the dispatch pipeline described in the design document.  The two
Sequelize schemas are embedded directly from the source; the service /
dispatch behaviour (routes reference a `notification.route` module that
is not part of the repository snapshot) is modelled from the design
document and marked as such on each definition.
-/

namespace CreateApp

/-- Notification categories: the `type` ENUM of `notification.model.js`. -/
inductive NotificationType where
  | project_update
  | project_approved
  | project_rejected
  | payment_received
  | payment_pending
  | message
  | reminder
  | system
  | general
deriving DecidableEq, Repr

/-- Delivery statuses: the `status` ENUM of `notification.model.js`. -/
inductive NotificationStatus where
  | pending
  | sent
  | delivered
  | failed
  | read
deriving DecidableEq, Repr

/-- Device platforms: the `platform` ENUM of `pushToken.model.js`. -/
inductive Platform where
  | ios
  | android
  | web
deriving DecidableEq, Repr

/-- Priorities: the `priority` ENUM of `notification.model.js`. -/
inductive Priority where
  | low
  | normal
  | high
deriving DecidableEq, Repr

/-- The five preference keys stored in the `preferences` JSONB blob of
`pushToken.model.js`.  A key may be absent from a stored blob (tokens
created before a key existed), hence `Option Bool` fields. -/
structure Preferences where
  projectUpdates : Option Bool
  payments : Option Bool
  messages : Option Bool
  reminders : Option Bool
  marketing : Option Bool
deriving DecidableEq, Repr

/-- The preference keys, as an enumeration (used by the category gate). -/
inductive PrefKey where
  | projectUpdates
  | payments
  | messages
  | reminders
  | marketing
deriving DecidableEq, Repr

/-- Look one flag up in a preference blob. -/
def Preferences.get (p : Preferences) : PrefKey → Option Bool
  | .projectUpdates => p.projectUpdates
  | .payments => p.payments
  | .messages => p.messages
  | .reminders => p.reminders
  | .marketing => p.marketing

/-- The schema default of the `preferences` column in
`pushToken.model.js`: all flags true except `marketing`. -/
def defaultPreferences : Preferences :=
  { projectUpdates := some true
    payments := some true
    messages := some true
    reminders := some true
    marketing := some false }

/-- A `push_token` row (`pushToken.model.js`).  Ids and timestamps are
modelled as naturals. -/
structure PushToken where
  id : Nat
  userId : Nat
  token : String
  platform : Platform
  deviceId : Option String
  deviceName : Option String
  isActive : Bool
  lastUsedAt : Option Nat
  preferences : Option Preferences
deriving DecidableEq, Repr

/-- A `notification` row (`notification.model.js`).  The opaque JSONB
`data` payload is modelled as a list of string pairs. -/
structure Notification where
  id : Nat
  userId : Nat
  title : String
  body : String
  type : NotificationType
  data : List (String × String)
  status : NotificationStatus
  expoReceiptId : Option String
  errorMessage : Option String
  sentAt : Option Nat
  deliveredAt : Option Nat
  readAt : Option Nat
  priority : Priority
  channelId : String
deriving DecidableEq, Repr

/-- The relational store: the two tables of the subsystem plus an id
counter standing for the UUID generator. -/
structure DB where
  pushTokens : List PushToken
  notifications : List Notification
  nextId : Nat
deriving DecidableEq, Repr

/-- The empty store. -/
def emptyDB : DB := { pushTokens := [], notifications := [], nextId := 0 }

/-- The `token` column is `STRING(500)`: the store accepts a row only
when the delivery address fits in 500 characters
(`pushToken.model.js`). -/
def tokenColumnLimit : Nat := 500

/-- Build a `push_token` row, applying the schema defaults of
`pushToken.model.js` to every omitted (`none`) field: `platform`
defaults to android, `isActive` to true, `preferences` to
`defaultPreferences`. -/
def mkPushToken (id userId : Nat) (token : String) (platform : Option Platform)
    (deviceId deviceName : Option String) (isActive : Option Bool)
    (lastUsedAt : Option Nat) (preferences : Option Preferences) : PushToken :=
  { id := id
    userId := userId
    token := token
    platform := platform.getD Platform.android
    deviceId := deviceId
    deviceName := deviceName
    isActive := isActive.getD true
    lastUsedAt := lastUsedAt
    preferences := some (preferences.getD defaultPreferences) }

/-- Row lookup by the unique key `(userId, token)`
(index `push_token_user_token_unique` in `pushToken.model.js`). -/
def findToken (db : DB) (userId : Nat) (token : String) : Option PushToken :=
  db.pushTokens.find? (fun r => r.userId == userId && r.token == token)

/-- Modelled from the spec: `TokenStore.upsertToken` (§4.1) — the
service source is not in the repository snapshot.  Looks up by
`(userId, token)`; if found, updates the mutable fields, sets
`isActive := true` and refreshes `lastUsedAt`; otherwise inserts a new
row with the schema defaults.  The write is rejected when the address
exceeds the `STRING(500)` column bound of `pushToken.model.js`. -/
def applyUpsertFields (now : Nat) (platform : Option Platform)
    (deviceId deviceName : Option String) (preferences : Option Preferences)
    (r : PushToken) : PushToken :=
  { r with
      platform := platform.getD r.platform
      deviceId := match deviceId with
        | some d => some d
        | none => r.deviceId
      deviceName := match deviceName with
        | some d => some d
        | none => r.deviceName
      isActive := true
      lastUsedAt := some now
      preferences := match preferences with
        | some p => some p
        | none => r.preferences }

def upsertToken (db : DB) (now userId : Nat) (token : String)
    (platform : Option Platform) (deviceId deviceName : Option String)
    (preferences : Option Preferences) : Except String DB :=
  if tokenColumnLimit < token.length then
    .error "value too long for type character varying"
  else
    match findToken db userId token with
    | some _ =>
        .ok { db with pushTokens := db.pushTokens.map (fun r =>
          if r.userId == userId && r.token == token then
            applyUpsertFields now platform deviceId deviceName preferences r
          else r) }
    | none =>
        .ok { db with
          pushTokens := db.pushTokens ++
            [mkPushToken db.nextId userId token platform deviceId deviceName
              none (some now) preferences]
          nextId := db.nextId + 1 }

/-- Run an upsert against the store: a rejected write leaves the store
unchanged (the transaction aborts). -/
def runUpsert (db : DB) (now userId : Nat) (token : String)
    (platform : Option Platform) (deviceId deviceName : Option String)
    (preferences : Option Preferences) : DB :=
  match upsertToken db now userId token platform deviceId deviceName preferences with
  | .ok db2 => db2
  | .error _ => db

/-- Modelled from the spec: `TokenStore.deactivateToken` (§4.1) — the
service source is not in the repository snapshot.  Soft-deletes the
matching row (sets `isActive := false`); a miss is a no-op, and no row
is ever removed. -/
def deactivateToken (db : DB) (userId : Nat) (token : String) : DB :=
  { db with pushTokens := db.pushTokens.map (fun r =>
      if r.userId == userId && r.token == token then { r with isActive := false }
      else r) }

/-- Modelled from the spec: `TokenStore.setPreferencesForUser` (§4.1) —
the service source is not in the repository snapshot.  Bulk-updates the
preferences of every active token owned by the user. -/
def setPreferencesForUser (db : DB) (userId : Nat) (p : Preferences) : DB :=
  { db with pushTokens := db.pushTokens.map (fun r =>
      if r.userId == userId && r.isActive then { r with preferences := some p }
      else r) }

/-- Modelled from the spec: `TokenStore.listActiveTokens` (§4.1) — the
service source is not in the repository snapshot.  Returns only the
`isActive = true` rows of the user. -/
def listActiveTokens (db : DB) (userId : Nat) : List PushToken :=
  db.pushTokens.filter (fun r => r.userId == userId && r.isActive)

/-- Modelled from the spec: the PreferenceFilter category gate (§4.2) —
the filter source is not in the repository snapshot.  Maps a
notification category to the preference key that governs it; `general`
and `system` are ungated. -/
def gateKey : NotificationType → Option PrefKey
  | .project_update => some .projectUpdates
  | .project_approved => some .projectUpdates
  | .project_rejected => some .projectUpdates
  | .payment_received => some .payments
  | .payment_pending => some .payments
  | .message => some .messages
  | .reminder => some .reminders
  | .system => none
  | .general => none

/-- Modelled from the spec: `shouldDeliver(token, type)` (§4.2) — the
filter source is not in the repository snapshot.  True unconditionally
for ungated categories; otherwise the governing flag of the token's
preference blob, defaulting to true when the flag (or the whole blob)
is absent. -/
def shouldDeliver (tok : PushToken) (ty : NotificationType) : Bool :=
  match gateKey ty with
  | none => true
  | some k => (tok.preferences.bind (fun p => p.get k)).getD true

/-- A per-message ticket returned by the push gateway (§6): either an
acknowledgment carrying a receipt id, or an error with a message. -/
inductive Ticket where
  | ok (receiptId : String)
  | err (msg : String)
deriving DecidableEq, Repr

/-- Whether a ticket acknowledges delivery. -/
def Ticket.isOk : Ticket → Bool
  | .ok _ => true
  | .err _ => false

/-- The error message of a ticket, when it has one. -/
def Ticket.errMsg : Ticket → Option String
  | .ok _ => none
  | .err m => some m

/-- A gateway message (§6): delivery address, display text, and the
notification record id embedded in the payload for correlation. -/
structure PushMessage where
  dest : String
  title : String
  body : String
  notificationId : Nat
deriving DecidableEq, Repr

/-- The gateway client capability (§9): submit one batch, get one
ticket per message, or fail at the transport level. -/
def GatewayFn : Type := List PushMessage → Except String (List Ticket)

/-- The gateway's documented maximum batch size (Expo chunk size). -/
def maxBatchSize : Nat := 100

/-- Split a message list into gateway-sized batches (fuelled recursion:
the fuel starts at the list length, which suffices because each step
consumes at least one message). -/
def chunkListAux : Nat → Nat → List PushMessage → List (List PushMessage)
  | _, _, [] => []
  | 0, _, l => [l]
  | fuel + 1, n, x :: xs =>
    if n ≤ 1 then [x] :: chunkListAux fuel n xs
    else (x :: xs.take (n - 1)) :: chunkListAux fuel n (xs.drop (n - 1))

/-- Split a message list into gateway-sized batches. -/
def chunkList (n : Nat) (l : List PushMessage) : List (List PushMessage) :=
  chunkListAux l.length n l

/-- Modelled from the spec: batch submission with per-batch
partial-failure isolation (§4.3) — a transport-level failure on one
batch becomes an error ticket for each message of that batch and does
not abort the other batches. -/
def submitBatches (gw : GatewayFn) (msgs : List PushMessage) : List Ticket :=
  ((chunkList maxBatchSize msgs).map (fun b =>
    match gw b with
    | .ok ts => ts
    | .error e => b.map (fun _ => Ticket.err e))).flatten

/-- The first successful ticket id of a ticket list, if any. -/
def firstOkId (ts : List Ticket) : Option String :=
  (ts.find? Ticket.isOk).bind (fun t =>
    match t with
    | .ok rid => some rid
    | .err _ => none)

/-- The first error message of a ticket list, if any. -/
def firstErrMsg (ts : List Ticket) : Option String :=
  (ts.find? (fun t => !t.isOk)).bind Ticket.errMsg

/-- The outcome reported by one dispatch call (§4.3/§4.4). -/
inductive DispatchOutcome where
  | noTokens
  | prefsBlocked
  | sentOut
  | failedOut
deriving DecidableEq, Repr

/-- What a dispatch call reports back: the record id, the outcome, the
batches actually submitted to the gateway, and per-message stats. -/
structure DispatchResult where
  notificationId : Nat
  outcome : DispatchOutcome
  batches : List (List PushMessage)
  sentCount : Nat
  failedCount : Nat
deriving DecidableEq, Repr

/-- A fresh `notification` row in `pending` state, with the schema
defaults of `notification.model.js` for the delivery fields. -/
def pendingRow (nid uid : Nat) (ti bo : String) (ty : NotificationType)
    (pr : Priority) (ch : String) : Notification :=
  { id := nid
    userId := uid
    title := ti
    body := bo
    type := ty
    data := []
    status := .pending
    expoReceiptId := none
    errorMessage := none
    sentAt := none
    deliveredAt := none
    readAt := none
    priority := pr
    channelId := ch }

/-- Insert the pending record for a send attempt (step 1 of §4.3). -/
def createPending (db : DB) (uid : Nat) (ti bo : String) (ty : NotificationType)
    (pr : Priority) (ch : String) : DB :=
  { db with
    notifications := db.notifications ++ [pendingRow db.nextId uid ti bo ty pr ch]
    nextId := db.nextId + 1 }

/-- Apply an update to the notification row with the given id. -/
def updateNotification (db : DB) (nid : Nat) (f : Notification → Notification) : DB :=
  { db with notifications := db.notifications.map (fun n =>
      if n.id == nid then f n else n) }

/-- The active tokens of a user that pass the preference filter for a
category. -/
def eligibleTokens (db : DB) (uid : Nat) (ty : NotificationType) : List PushToken :=
  (listActiveTokens db uid).filter (fun t => shouldDeliver t ty)

/-- Modelled from the spec: collapsing the collected tickets into the
record-level terminal status (step 6 of §4.3).  At least one `ok`
ticket finalizes the record `sent` with `sentAt = now` and the first
receipt id; otherwise the record is finalized `failed` with the first
error message. -/
def finalizeTickets (db : DB) (nid now : Nat) (ts : List Ticket) : DB :=
  match firstOkId ts with
  | some rid => updateNotification db nid (fun n =>
      { n with status := .sent, sentAt := some now, expoReceiptId := some rid })
  | none => updateNotification db nid (fun n =>
      { n with status := .failed, errorMessage := firstErrMsg ts })

/-- Modelled from the spec: `DispatchEngine.dispatch` (§4.3) — the
engine source is not in the repository snapshot.  Creates the pending
record, loads and filters the user's active tokens, batches and
submits the surviving messages, and finalizes the record from the
collected tickets; the no-token and all-filtered cases finalize
without contacting the gateway. -/
def dispatch (db : DB) (now : Nat) (gw : GatewayFn) (uid : Nat) (ti bo : String)
    (ty : NotificationType) (pr : Priority) (ch : String) : DB × DispatchResult :=
  let nid := db.nextId
  let db1 := createPending db uid ti bo ty pr ch
  if (listActiveTokens db1 uid).isEmpty then
    (db1, { notificationId := nid, outcome := .noTokens, batches := [],
            sentCount := 0, failedCount := 0 })
  else
    let eligible := eligibleTokens db1 uid ty
    if eligible.isEmpty then
      (db1, { notificationId := nid, outcome := .prefsBlocked, batches := [],
              sentCount := 0, failedCount := 0 })
    else
      let msgs := eligible.map (fun t =>
        { dest := t.token, title := ti, body := bo, notificationId := nid })
      let batches := chunkList maxBatchSize msgs
      let tickets := submitBatches gw msgs
      let db2 := finalizeTickets db1 nid now tickets
      let okCount := (tickets.filter Ticket.isOk).length
      (db2, { notificationId := nid
              outcome := if 0 < okCount then .sentOut else .failedOut
              batches := batches
              sentCount := okCount
              failedCount := tickets.length - okCount })

/-- What a broadcast call reports back. -/
structure BroadcastResult where
  users : Nat
  tokens : Nat
  sentCount : Nat
  failedCount : Nat
deriving DecidableEq, Repr

/-- Modelled from the spec: `broadcastNotification` (§4.4) — the
service source is not in the repository snapshot.  Creates one pending
record per target user up front (bulk), aggregates the active tokens
across all targets into one batched submission, and marks every
per-user record `sent` on completion regardless of the individual
ticket outcomes (best-effort broadcast). -/
def broadcastNotification (db : DB) (now : Nat) (gw : GatewayFn)
    (userIds : List Nat) (ti bo : String) (ty : NotificationType)
    (pr : Priority) : DB × BroadcastResult :=
  let targets := (List.range userIds.length).zip userIds
  let rows := targets.map (fun p => pendingRow (db.nextId + p.1) p.2 ti bo ty pr "default")
  let newIds := (List.range userIds.length).map (fun i => db.nextId + i)
  let db1 : DB := { db with
    notifications := db.notifications ++ rows
    nextId := db.nextId + userIds.length }
  let msgs := targets.flatMap (fun p =>
    (listActiveTokens db1 p.2).map (fun t =>
      { dest := t.token, title := ti, body := bo, notificationId := db.nextId + p.1 }))
  let tickets := submitBatches gw msgs
  let db2 : DB := { db1 with notifications := db1.notifications.map (fun n =>
    if newIds.contains n.id then { n with status := .sent, sentAt := some now }
    else n) }
  let okCount := (tickets.filter Ticket.isOk).length
  (db2, { users := userIds.length, tokens := msgs.length,
          sentCount := okCount, failedCount := tickets.length - okCount })

/-- Modelled from the spec: `markRead` (§4.4) — sets `status := read`
and `readAt := now` on the caller's record, from any prior status. -/
def markRead (db : DB) (now uid nid : Nat) : DB :=
  { db with notifications := db.notifications.map (fun n =>
      if n.id == nid && n.userId == uid then
        { n with status := .read, readAt := some now }
      else n) }

/-- Modelled from the spec: `markAllRead` (§4.4) — bulk-sets every
non-read record of the user to `read`. -/
def markAllRead (db : DB) (now uid : Nat) : DB :=
  { db with notifications := db.notifications.map (fun n =>
      if n.userId == uid && !(n.status == .read) then
        { n with status := .read, readAt := some now }
      else n) }

/-- Modelled from the spec: `deleteNotification` (§4.4) — hard-deletes
the caller's record. -/
def deleteNotification (db : DB) (uid nid : Nat) : DB :=
  { db with notifications := db.notifications.filter (fun n =>
      !(n.id == nid && n.userId == uid)) }

/-- The states of the store reachable through the operations of the
notification subsystem, starting from the empty store. -/
inductive Reachable : DB → Prop where
  | init : Reachable emptyDB
  | upsert (db : DB) (now uid : Nat) (t : String) (pf : Option Platform)
      (dI dN : Option String) (pr : Option Preferences) :
      Reachable db → Reachable (runUpsert db now uid t pf dI dN pr)
  | deactivate (db : DB) (uid : Nat) (t : String) :
      Reachable db → Reachable (deactivateToken db uid t)
  | setPrefs (db : DB) (uid : Nat) (p : Preferences) :
      Reachable db → Reachable (setPreferencesForUser db uid p)
  | dispatchStep (db : DB) (now : Nat) (gw : GatewayFn) (uid : Nat)
      (ti bo : String) (ty : NotificationType) (pr : Priority) (ch : String) :
      Reachable db → Reachable (dispatch db now gw uid ti bo ty pr ch).1
  | broadcastStep (db : DB) (now : Nat) (gw : GatewayFn) (userIds : List Nat)
      (ti bo : String) (ty : NotificationType) (pr : Priority) :
      Reachable db → Reachable (broadcastNotification db now gw userIds ti bo ty pr).1
  | markReadStep (db : DB) (now uid nid : Nat) :
      Reachable db → Reachable (markRead db now uid nid)
  | markAllReadStep (db : DB) (now uid : Nat) :
      Reachable db → Reachable (markAllRead db now uid)
  | deleteStep (db : DB) (uid nid : Nat) :
      Reachable db → Reachable (deleteNotification db uid nid)

/-- Row lookup by record id. -/
def getNotification (db : DB) (nid : Nat) : Option Notification :=
  db.notifications.find? (fun n => n.id == nid)

/-- Executable check: no stored notification id has reached the id
counter yet (the id generator is fresh). -/
def freshNotifIds (db : DB) : Bool :=
  db.notifications.all (fun n => decide (n.id < db.nextId))

/-- Executable check: no stored notification is in the `delivered`
state or carries a `deliveredAt` timestamp. -/
def noDeliveredCheck (db : DB) : Bool :=
  db.notifications.all (fun n =>
    !(n.status == NotificationStatus.delivered) && n.deliveredAt == none)

/-- Executable check: every stored delivery address fits in the
`STRING(500)` column. -/
def tokensWithinLimit (db : DB) : Bool :=
  db.pushTokens.all (fun r => decide (r.token.length ≤ tokenColumnLimit))

/-- Executable check: no two rows share the unique key
`(userId, token)`. -/
def keysUniqueCheck : List PushToken → Bool
  | [] => true
  | r :: rs =>
      rs.all (fun s => !(s.userId == r.userId && s.token == r.token))
        && keysUniqueCheck rs

/-- The tickets one dispatch call collects: the eligible tokens of the
user are turned into messages carrying the fresh record id, batched,
and submitted. -/
def dispatchTickets (db : DB) (gw : GatewayFn) (uid : Nat) (ti bo : String)
    (ty : NotificationType) : List Ticket :=
  submitBatches gw ((eligibleTokens db uid ty).map (fun t =>
    { dest := t.token, title := ti, body := bo, notificationId := db.nextId }))

/-- No stored notification is `delivered` or has a `deliveredAt`
timestamp. -/
def NoDelivered (db : DB) : Prop :=
  ∀ n ∈ db.notifications, n.status ≠ NotificationStatus.delivered ∧ n.deliveredAt = none

/-- Every stored delivery address fits the `STRING(500)` column. -/
def TokensFit (db : DB) : Prop :=
  ∀ r ∈ db.pushTokens, r.token.length ≤ tokenColumnLimit

/-- A gateway stub that acknowledges every message. -/
def gwAllOk : GatewayFn := fun msgs => Except.ok (msgs.map (fun _ => Ticket.ok "receipt-1"))

/-- A gateway stub whose transport always fails. -/
def gwDown : GatewayFn := fun _ => Except.error "gateway unreachable"

/-- A store holding one registered token for user 1. -/
def dbW1 : DB := runUpsert emptyDB 5 1 "expo-token-aaa" none none none none

/-- A store after one dispatch against `dbW1`. -/
def dbW2 : DB :=
  (dispatch dbW1 7 gwAllOk 1 "hello" "body" NotificationType.general
    Priority.normal "default").1

/-- A token whose owner opted out of payment notifications. -/
def tokC3 : PushToken :=
  mkPushToken 0 1 "expo-token-bbb" none none none none none
    (some { projectUpdates := some true, payments := some false,
            messages := some true, reminders := some true,
            marketing := some false })

/-- A token stored before the payments preference key existed: its
blob has no `payments` entry. -/
def tokC3absent : PushToken :=
  { id := 2
    userId := 4
    token := "expo-token-ccc"
    platform := Platform.android
    deviceId := none
    deviceName := none
    isActive := true
    lastUsedAt := some 5
    preferences := some { projectUpdates := some true, payments := none,
                          messages := some true, reminders := some true,
                          marketing := none } }

/-- A 501-character delivery address. -/
def longTok : String := String.mk (List.replicate 501 'x')

section ListLemmas

/-- `find?` commutes with a map that does not change the predicate. -/
theorem find?_map_pred {α : Type} (g : α → α) (p : α → Bool) (l : List α)
    (hg : ∀ x, p (g x) = p x) :
    (l.map g).find? p = (l.find? p).map g := by
  rw [List.find?_map g l]
  have hpg : p ∘ g = p := funext hg
  rw [hpg]

/-- A conditional update whose condition never fires is the identity
map. -/
theorem map_if_eq_self {α : Type} (p : α → Bool) (f : α → α) (l : List α)
    (h : ∀ x ∈ l, p x = false) :
    l.map (fun x => if p x then f x else x) = l := by
  induction l with
  | nil => rfl
  | cons a t ih =>
      have ha : p a = false := h a (by simp)
      have ht : ∀ x ∈ t, p x = false := fun x hx => h x (by simp [hx])
      simp [ha, ih ht]

end ListLemmas

section Preservation

theorem createPending_pushTokens (db : DB) (uid : Nat) (ti bo : String)
    (ty : NotificationType) (pr : Priority) (ch : String) :
    (createPending db uid ti bo ty pr ch).pushTokens = db.pushTokens := rfl

theorem updateNotification_pushTokens (db : DB) (nid : Nat)
    (f : Notification → Notification) :
    (updateNotification db nid f).pushTokens = db.pushTokens := rfl

theorem finalizeTickets_pushTokens (db : DB) (nid now : Nat) (ts : List Ticket) :
    (finalizeTickets db nid now ts).pushTokens = db.pushTokens := by
  unfold finalizeTickets
  split <;> rfl

theorem dispatch_pushTokens (db : DB) (now : Nat) (gw : GatewayFn) (uid : Nat)
    (ti bo : String) (ty : NotificationType) (pr : Priority) (ch : String) :
    (dispatch db now gw uid ti bo ty pr ch).1.pushTokens = db.pushTokens := by
  simp only [dispatch]
  split
  · rfl
  · split
    · rfl
    · exact finalizeTickets_pushTokens ..

theorem broadcast_pushTokens (db : DB) (now : Nat) (gw : GatewayFn)
    (userIds : List Nat) (ti bo : String) (ty : NotificationType) (pr : Priority) :
    (broadcastNotification db now gw userIds ti bo ty pr).1.pushTokens
      = db.pushTokens := rfl

theorem markRead_pushTokens (db : DB) (now uid nid : Nat) :
    (markRead db now uid nid).pushTokens = db.pushTokens := rfl

theorem markAllRead_pushTokens (db : DB) (now uid : Nat) :
    (markAllRead db now uid).pushTokens = db.pushTokens := rfl

theorem delete_pushTokens (db : DB) (uid nid : Nat) :
    (deleteNotification db uid nid).pushTokens = db.pushTokens := rfl

theorem upsertToken_ok_notifications (db db2 : DB) (now uid : Nat) (t : String)
    (pf : Option Platform) (dI dN : Option String) (pr : Option Preferences)
    (h : upsertToken db now uid t pf dI dN pr = .ok db2) :
    db2.notifications = db.notifications := by
  unfold upsertToken at h
  split at h
  · simp at h
  · split at h <;> (injection h with h2; rw [← h2])

theorem runUpsert_notifications (db : DB) (now uid : Nat) (t : String)
    (pf : Option Platform) (dI dN : Option String) (pr : Option Preferences) :
    (runUpsert db now uid t pf dI dN pr).notifications = db.notifications := by
  unfold runUpsert
  split
  · exact upsertToken_ok_notifications _ _ _ _ _ _ _ _ _ (by assumption)
  · rfl

theorem deactivate_notifications (db : DB) (uid : Nat) (t : String) :
    (deactivateToken db uid t).notifications = db.notifications := rfl

theorem setPrefs_notifications (db : DB) (uid : Nat) (p : Preferences) :
    (setPreferencesForUser db uid p).notifications = db.notifications := rfl

end Preservation

section Invariants

theorem noDelivered_updateNotification {db : DB} {nid : Nat}
    {f : Notification → Notification} (h : NoDelivered db)
    (hf : ∀ n, (f n).status ≠ NotificationStatus.delivered ∧ (f n).deliveredAt = n.deliveredAt) :
    NoDelivered (updateNotification db nid f) := by
  intro n hn
  simp only [updateNotification, List.mem_map] at hn
  obtain ⟨m, hm, rfl⟩ := hn
  by_cases hc : (m.id == nid) = true
  · simp only [hc, if_true]
    exact ⟨(hf m).1, by rw [(hf m).2]; exact (h m hm).2⟩
  · simp only [hc]
    simp only [if_false, Bool.false_eq_true]
    exact h m hm

theorem noDelivered_createPending {db : DB} (h : NoDelivered db) (uid : Nat)
    (ti bo : String) (ty : NotificationType) (pr : Priority) (ch : String) :
    NoDelivered (createPending db uid ti bo ty pr ch) := by
  intro n hn
  simp only [createPending, List.mem_append, List.mem_singleton] at hn
  rcases hn with hn | rfl
  · exact h n hn
  · exact ⟨by simp [pendingRow], by simp [pendingRow]⟩

theorem noDelivered_finalizeTickets {db : DB} (h : NoDelivered db)
    (nid now : Nat) (ts : List Ticket) :
    NoDelivered (finalizeTickets db nid now ts) := by
  unfold finalizeTickets
  split
  · exact noDelivered_updateNotification h (fun n => ⟨by simp, by simp⟩)
  · exact noDelivered_updateNotification h (fun n => ⟨by simp, by simp⟩)

theorem noDelivered_dispatch {db : DB} (h : NoDelivered db) (now : Nat)
    (gw : GatewayFn) (uid : Nat) (ti bo : String) (ty : NotificationType)
    (pr : Priority) (ch : String) :
    NoDelivered (dispatch db now gw uid ti bo ty pr ch).1 := by
  simp only [dispatch]
  split
  · exact noDelivered_createPending h uid ti bo ty pr ch
  · split
    · exact noDelivered_createPending h uid ti bo ty pr ch
    · exact noDelivered_finalizeTickets
        (noDelivered_createPending h uid ti bo ty pr ch) db.nextId now _

theorem noDelivered_broadcast {db : DB} (h : NoDelivered db) (now : Nat)
    (gw : GatewayFn) (userIds : List Nat) (ti bo : String)
    (ty : NotificationType) (pr : Priority) :
    NoDelivered (broadcastNotification db now gw userIds ti bo ty pr).1 := by
  intro n hn
  simp only [broadcastNotification, List.mem_map, List.mem_append] at hn
  obtain ⟨m, hm, rfl⟩ := hn
  have hmOk : m.status ≠ NotificationStatus.delivered ∧ m.deliveredAt = none := by
    rcases hm with hm | hm
    · exact h m hm
    · obtain ⟨p, _, rfl⟩ := hm
      exact ⟨by simp [pendingRow], by simp [pendingRow]⟩
  by_cases hc : (List.contains ((List.range userIds.length).map (fun i => db.nextId + i)) m.id) = true
  · simp only [hc, if_true]
    exact ⟨by simp, hmOk.2⟩
  · simp only [hc]
    simp only [if_false, Bool.false_eq_true]
    exact hmOk

theorem noDelivered_markRead {db : DB} (h : NoDelivered db) (now uid nid : Nat) :
    NoDelivered (markRead db now uid nid) := by
  intro n hn
  simp only [markRead, List.mem_map] at hn
  obtain ⟨m, hm, rfl⟩ := hn
  by_cases hc : (m.id == nid && m.userId == uid) = true
  · simp only [hc, if_true]
    exact ⟨by simp, (h m hm).2⟩
  · simp only [hc]
    simp only [if_false, Bool.false_eq_true]
    exact h m hm

theorem noDelivered_markAllRead {db : DB} (h : NoDelivered db) (now uid : Nat) :
    NoDelivered (markAllRead db now uid) := by
  intro n hn
  simp only [markAllRead, List.mem_map] at hn
  obtain ⟨m, hm, rfl⟩ := hn
  by_cases hc : (m.userId == uid && !(m.status == NotificationStatus.read)) = true
  · simp only [hc, if_true]
    exact ⟨by simp, (h m hm).2⟩
  · simp only [hc]
    simp only [if_false, Bool.false_eq_true]
    exact h m hm

theorem noDelivered_delete {db : DB} (h : NoDelivered db) (uid nid : Nat) :
    NoDelivered (deleteNotification db uid nid) := by
  intro n hn
  simp only [deleteNotification, List.mem_filter] at hn
  exact h n hn.1

/-- Every reachable store satisfies the no-`delivered` invariant. -/
theorem reachable_noDelivered {db : DB} (h : Reachable db) : NoDelivered db := by
  induction h with
  | init => intro n hn; simp [emptyDB] at hn
  | upsert db now uid t pf dI dN pr _ ih =>
      intro n hn
      rw [runUpsert_notifications] at hn
      exact ih n hn
  | deactivate db uid t _ ih =>
      intro n hn
      rw [deactivate_notifications] at hn
      exact ih n hn
  | setPrefs db uid p _ ih =>
      intro n hn
      rw [setPrefs_notifications] at hn
      exact ih n hn
  | dispatchStep db now gw uid ti bo ty pr ch _ ih =>
      exact noDelivered_dispatch ih now gw uid ti bo ty pr ch
  | broadcastStep db now gw userIds ti bo ty pr _ ih =>
      exact noDelivered_broadcast ih now gw userIds ti bo ty pr
  | markReadStep db now uid nid _ ih => exact noDelivered_markRead ih now uid nid
  | markAllReadStep db now uid _ ih => exact noDelivered_markAllRead ih now uid
  | deleteStep db uid nid _ ih => exact noDelivered_delete ih uid nid

theorem tokensFit_runUpsert {db : DB} (h : TokensFit db) (now uid : Nat)
    (t : String) (pf : Option Platform) (dI dN : Option String)
    (pr : Option Preferences) :
    TokensFit (runUpsert db now uid t pf dI dN pr) := by
  unfold runUpsert
  split
  case h_1 db2 heq =>
    unfold upsertToken at heq
    split at heq
    · simp at heq
    case isFalse hlen =>
      split at heq <;> injection heq with h2 <;> rw [← h2]
      · intro r hr
        simp only [List.mem_map] at hr
        obtain ⟨s, hs, rfl⟩ := hr
        by_cases hc : (s.userId == uid && s.token == t) = true
        · simp only [hc, if_true]
          exact h s hs
        · simp only [hc]
          simp only [if_false, Bool.false_eq_true]
          exact h s hs
      · intro r hr
        simp only [List.mem_append, List.mem_singleton] at hr
        rcases hr with hr | rfl
        · exact h r hr
        · simp only [mkPushToken]
          omega
  · exact h

theorem tokensFit_deactivate {db : DB} (h : TokensFit db) (uid : Nat) (t : String) :
    TokensFit (deactivateToken db uid t) := by
  intro r hr
  simp only [deactivateToken, List.mem_map] at hr
  obtain ⟨s, hs, rfl⟩ := hr
  by_cases hc : (s.userId == uid && s.token == t) = true
  · simp only [hc, if_true]; exact h s hs
  · simp only [hc]
    simp only [if_false, Bool.false_eq_true]
    exact h s hs

theorem tokensFit_setPrefs {db : DB} (h : TokensFit db) (uid : Nat) (p : Preferences) :
    TokensFit (setPreferencesForUser db uid p) := by
  intro r hr
  simp only [setPreferencesForUser, List.mem_map] at hr
  obtain ⟨s, hs, rfl⟩ := hr
  by_cases hc : (s.userId == uid && s.isActive) = true
  · simp only [hc, if_true]; exact h s hs
  · simp only [hc]
    simp only [if_false, Bool.false_eq_true]
    exact h s hs

/-- Every reachable store satisfies the 500-character column bound. -/
theorem reachable_tokensFit {db : DB} (h : Reachable db) : TokensFit db := by
  induction h with
  | init => intro r hr; simp [emptyDB] at hr
  | upsert db now uid t pf dI dN pr _ ih => exact tokensFit_runUpsert ih now uid t pf dI dN pr
  | deactivate db uid t _ ih => exact tokensFit_deactivate ih uid t
  | setPrefs db uid p _ ih => exact tokensFit_setPrefs ih uid p
  | dispatchStep db now gw uid ti bo ty pr ch _ ih =>
      intro r hr
      rw [dispatch_pushTokens] at hr
      exact ih r hr
  | broadcastStep db now gw userIds ti bo ty pr _ ih =>
      intro r hr
      rw [broadcast_pushTokens] at hr
      exact ih r hr
  | markReadStep db now uid nid _ ih =>
      intro r hr
      rw [markRead_pushTokens] at hr
      exact ih r hr
  | markAllReadStep db now uid _ ih =>
      intro r hr
      rw [markAllRead_pushTokens] at hr
      exact ih r hr
  | deleteStep db uid nid _ ih =>
      intro r hr
      rw [delete_pushTokens] at hr
      exact ih r hr

theorem keyMatch_symm_false {a b : PushToken}
    (h : (a.userId == b.userId && a.token == b.token) = false) :
    (b.userId == a.userId && b.token == a.token) = false := by
  rw [Bool.and_eq_false_iff] at h ⊢
  rcases h with h | h
  · left
    rw [beq_eq_false_iff_ne] at h ⊢
    exact fun e => h e.symm
  · right
    rw [beq_eq_false_iff_ne] at h ⊢
    exact fun e => h e.symm

theorem keysUniqueCheck_map_keys (g : PushToken → PushToken) (l : List PushToken)
    (hg : ∀ r, (g r).userId = r.userId ∧ (g r).token = r.token) :
    keysUniqueCheck (l.map g) = keysUniqueCheck l := by
  induction l with
  | nil => rfl
  | cons a t ih =>
      simp only [List.map_cons, keysUniqueCheck, List.all_map]
      rw [ih]
      congr 1
      have hfun : ((fun s => !(s.userId == (g a).userId && s.token == (g a).token)) ∘ g)
          = (fun s : PushToken => !(s.userId == a.userId && s.token == a.token)) := by
        funext s
        simp only [Function.comp_apply]
        rw [(hg s).1, (hg s).2, (hg a).1, (hg a).2]
      rw [hfun]

theorem keysUniqueCheck_append_one (l : List PushToken) (r : PushToken)
    (h : keysUniqueCheck l = true)
    (hnew : ∀ s ∈ l, (s.userId == r.userId && s.token == r.token) = false) :
    keysUniqueCheck (l ++ [r]) = true := by
  induction l with
  | nil => simp [keysUniqueCheck]
  | cons a t ih =>
      simp only [keysUniqueCheck, Bool.and_eq_true, List.all_eq_true] at h
      obtain ⟨h1, h2⟩ := h
      simp only [List.cons_append, keysUniqueCheck, Bool.and_eq_true, List.all_eq_true]
      constructor
      · intro s hs
        rcases List.mem_append.1 hs with hs | hs
        · exact h1 s hs
        · rw [List.mem_singleton] at hs
          subst hs
          have h3 := hnew a (List.mem_cons_self a t)
          rw [Bool.not_eq_true']
          exact keyMatch_symm_false h3
      · exact ih h2 (fun s hs => hnew s (List.mem_cons_of_mem a hs))

theorem findToken_none_all_false {db : DB} {uid : Nat} {t : String}
    (h : findToken db uid t = none) :
    ∀ s ∈ db.pushTokens, (s.userId == uid && s.token == t) = false := by
  intro s hs
  have := List.find?_eq_none.1 h s hs
  simpa using this

theorem keysUnique_runUpsert {db : DB}
    (h : keysUniqueCheck db.pushTokens = true) (now uid : Nat) (t : String)
    (pf : Option Platform) (dI dN : Option String) (pr : Option Preferences) :
    keysUniqueCheck (runUpsert db now uid t pf dI dN pr).pushTokens = true := by
  unfold runUpsert
  split
  case h_1 db2 heq =>
    unfold upsertToken at heq
    split at heq
    · simp at heq
    case isFalse hlen =>
      split at heq <;> injection heq with h2 <;> rw [← h2]
      · rw [keysUniqueCheck_map_keys]
        · exact h
        · intro r
          by_cases hc : (r.userId == uid && r.token == t) = true <;>
            simp [hc, applyUpsertFields]
      case h_2 hmiss =>
        apply keysUniqueCheck_append_one _ _ h
        intro s hs
        have := findToken_none_all_false hmiss s hs
        simpa [mkPushToken] using this
  · exact h

theorem keysUnique_deactivate {db : DB}
    (h : keysUniqueCheck db.pushTokens = true) (uid : Nat) (t : String) :
    keysUniqueCheck (deactivateToken db uid t).pushTokens = true := by
  show keysUniqueCheck (db.pushTokens.map _) = true
  rw [keysUniqueCheck_map_keys]
  · exact h
  · intro r
    by_cases hc : (r.userId == uid && r.token == t) = true <;> simp [hc]

theorem keysUnique_setPrefs {db : DB}
    (h : keysUniqueCheck db.pushTokens = true) (uid : Nat) (p : Preferences) :
    keysUniqueCheck (setPreferencesForUser db uid p).pushTokens = true := by
  show keysUniqueCheck (db.pushTokens.map _) = true
  rw [keysUniqueCheck_map_keys]
  · exact h
  · intro r
    by_cases hc : (r.userId == uid && r.isActive) = true <;> simp [hc]

/-- Every reachable store satisfies the `(userId, token)` uniqueness
invariant. -/
theorem reachable_keysUnique {db : DB} (h : Reachable db) :
    keysUniqueCheck db.pushTokens = true := by
  induction h with
  | init => rfl
  | upsert db now uid t pf dI dN pr _ ih => exact keysUnique_runUpsert ih now uid t pf dI dN pr
  | deactivate db uid t _ ih => exact keysUnique_deactivate ih uid t
  | setPrefs db uid p _ ih => exact keysUnique_setPrefs ih uid p
  | dispatchStep db now gw uid ti bo ty pr ch _ ih => rw [dispatch_pushTokens]; exact ih
  | broadcastStep db now gw userIds ti bo ty pr _ ih => rw [broadcast_pushTokens]; exact ih
  | markReadStep db now uid nid _ ih => rw [markRead_pushTokens]; exact ih
  | markAllReadStep db now uid _ ih => rw [markAllRead_pushTokens]; exact ih
  | deleteStep db uid nid _ ih => rw [delete_pushTokens]; exact ih

theorem freshNotifIds_ne {db : DB} (h : freshNotifIds db = true) :
    ∀ n ∈ db.notifications, n.id ≠ db.nextId := by
  intro n hn
  have h2 := List.all_eq_true.1 h n hn
  simp only [decide_eq_true_eq] at h2
  omega

theorem find?_update_append (l : List Notification) (nid : Nat)
    (f : Notification → Notification) (hf : ∀ n, (f n).id = n.id)
    (hl : ∀ n ∈ l, n.id ≠ nid) (row : Notification) (hrow : row.id = nid) :
    ((l ++ [row]).map (fun n => if n.id == nid then f n else n)).find?
      (fun n => n.id == nid) = some (f row) := by
  induction l with
  | nil =>
      have hcond : (row.id == nid) = true := by simp [hrow]
      simp only [List.nil_append, List.map_cons, List.map_nil, hcond, if_true]
      have hfr : ((f row).id == nid) = true := by simp [hf, hrow]
      simp only [List.find?, hfr]
  | cons a t ih =>
      have ha : (a.id == nid) = false := by simp [hl a (List.mem_cons_self a t)]
      simp only [List.cons_append, List.map_cons]
      rw [show (if (a.id == nid) = true then f a else a) = a by simp [ha]]
      simp only [List.find?, ha]
      exact ih (fun n hn => hl n (List.mem_cons_of_mem a hn))

theorem firstOkId_isSome_of_mem {ts : List Ticket} {rid : String}
    (h : Ticket.ok rid ∈ ts) : ∃ r, firstOkId ts = some r := by
  unfold firstOkId
  cases hf : ts.find? Ticket.isOk with
  | none =>
      exfalso
      have h2 := List.find?_eq_none.1 hf _ h
      simp [Ticket.isOk] at h2
  | some tk =>
      have hok := List.find?_some hf
      cases tk with
      | ok r => exact ⟨r, rfl⟩
      | err m => simp [Ticket.isOk] at hok

theorem firstOkId_eq_none_of_all_err {ts : List Ticket}
    (h : ∀ tk ∈ ts, tk.isOk = false) : firstOkId ts = none := by
  unfold firstOkId
  have h2 : ts.find? Ticket.isOk = none :=
    List.find?_eq_none.2 (by intro x hx; simp [h x hx])
  rw [h2]
  rfl

theorem firstErrMsg_isSome_of_all_err {ts : List Ticket} (hne : ts ≠ [])
    (h : ∀ tk ∈ ts, tk.isOk = false) : ∃ m, firstErrMsg ts = some m := by
  unfold firstErrMsg
  cases ts with
  | nil => exact absurd rfl hne
  | cons a t =>
      have ha : a.isOk = false := h a (List.mem_cons_self a t)
      have ha2 : (!a.isOk) = true := by simp [ha]
      simp only [List.find?, ha2]
      cases a with
      | ok r => simp [Ticket.isOk] at ha
      | err m => exact ⟨m, rfl⟩

theorem upsertToken_update_eq {db : DB} {uid : Nat} {t : String} {r : PushToken}
    (now : Nat) (pf : Option Platform) (dI dN : Option String)
    (pr : Option Preferences) (hr : findToken db uid t = some r)
    (hlen : t.length ≤ tokenColumnLimit) :
    upsertToken db now uid t pf dI dN pr = Except.ok { db with
      pushTokens := db.pushTokens.map (fun s =>
        if s.userId == uid && s.token == t then
          applyUpsertFields now pf dI dN pr s
        else s) } := by
  unfold upsertToken
  rw [if_neg (by omega), hr]

theorem runUpsert_update_eq {db : DB} {uid : Nat} {t : String} {r : PushToken}
    (now : Nat) (pf : Option Platform) (dI dN : Option String)
    (pr : Option Preferences) (hr : findToken db uid t = some r)
    (hlen : t.length ≤ tokenColumnLimit) :
    runUpsert db now uid t pf dI dN pr = { db with
      pushTokens := db.pushTokens.map (fun s =>
        if s.userId == uid && s.token == t then
          applyUpsertFields now pf dI dN pr s
        else s) } := by
  unfold runUpsert
  rw [upsertToken_update_eq now pf dI dN pr hr hlen]

theorem upsertToken_create_eq {db : DB} {uid : Nat} {t : String}
    (now : Nat) (pf : Option Platform) (dI dN : Option String)
    (pr : Option Preferences) (hmiss : findToken db uid t = none)
    (hlen : t.length ≤ tokenColumnLimit) :
    upsertToken db now uid t pf dI dN pr = Except.ok { db with
      pushTokens := db.pushTokens ++
        [mkPushToken db.nextId uid t pf dI dN none (some now) pr]
      nextId := db.nextId + 1 } := by
  unfold upsertToken
  rw [if_neg (by omega), hmiss]

theorem runUpsert_create_eq {db : DB} {uid : Nat} {t : String}
    (now : Nat) (pf : Option Platform) (dI dN : Option String)
    (pr : Option Preferences) (hmiss : findToken db uid t = none)
    (hlen : t.length ≤ tokenColumnLimit) :
    runUpsert db now uid t pf dI dN pr = { db with
      pushTokens := db.pushTokens ++
        [mkPushToken db.nextId uid t pf dI dN none (some now) pr]
      nextId := db.nextId + 1 } := by
  unfold runUpsert
  rw [upsertToken_create_eq now pf dI dN pr hmiss hlen]

theorem find?_key_map {l : List PushToken} {uid : Nat} {t : String} {r : PushToken}
    (hr : l.find? (fun s => s.userId == uid && s.token == t) = some r)
    (g : PushToken → PushToken)
    (hg : ∀ x, (g x).userId = x.userId ∧ (g x).token = x.token) :
    (l.map g).find? (fun s => s.userId == uid && s.token == t) = some (g r) := by
  rw [find?_map_pred g _ l (fun x => by rw [(hg x).1, (hg x).2]), hr]
  rfl

end Invariants

section Claims

/-- C3: for every token, `shouldDeliver` returns true unconditionally
for `general` and `system`; for a gated category it returns the
token's governing preference flag, defaulting to true when the flag
(or the whole blob) is absent; in particular a token whose `payments`
flag is false does not receive `payment_received`. -/
theorem claim_C3_shouldDeliver_gating (tok : PushToken) (ty : NotificationType)
    (k : PrefKey) :
    shouldDeliver tok NotificationType.general = true
    ∧ shouldDeliver tok NotificationType.system = true
    ∧ (gateKey ty = some k →
        shouldDeliver tok ty = (tok.preferences.bind (fun p => p.get k)).getD true)
    ∧ (gateKey ty = some k → tok.preferences.bind (fun p => p.get k) = none →
        shouldDeliver tok ty = true)
    ∧ (tok.preferences.bind (fun p => p.payments) = some false →
        shouldDeliver tok NotificationType.payment_received = false) := by
  refine ⟨rfl, rfl, ?_, ?_, ?_⟩
  · intro hgate
    simp [shouldDeliver, hgate]
  · intro hgate h0
    simp [shouldDeliver, hgate, h0]
  · intro hpay
    have h2 : tok.preferences.bind (fun p => p.get PrefKey.payments) = some false := by
      rw [← hpay]
      rfl
    simp [shouldDeliver, gateKey, h2]

/-- C3 witness: a token with `payments = false` receives `general` and
`system` but not `payment_received`, and a token whose blob lacks the
`payments` key still receives `payment_received`. -/
theorem claim_C3_witness :
    shouldDeliver tokC3 NotificationType.general = true
    ∧ shouldDeliver tokC3 NotificationType.system = true
    ∧ shouldDeliver tokC3 NotificationType.payment_received = false
    ∧ shouldDeliver tokC3absent NotificationType.payment_received = true := by
  have h1 := claim_C3_shouldDeliver_gating tokC3 NotificationType.payment_received
    PrefKey.payments
  have h2 := claim_C3_shouldDeliver_gating tokC3absent NotificationType.payment_received
    PrefKey.payments
  exact ⟨h1.1, h1.2.1, h1.2.2.2.2 (by decide), h2.2.2.2.1 rfl (by decide)⟩

/-- C6: a push-token row created without an explicit preferences value
receives the schema default — all flags true except `marketing`. -/
theorem claim_C6_default_preferences (db : DB) (now uid : Nat) (t : String)
    (pf : Option Platform) (dI dN : Option String)
    (hmiss : findToken db uid t = none) (hlen : t.length ≤ tokenColumnLimit) :
    (mkPushToken db.nextId uid t pf dI dN none (some now) none).preferences
        = some { projectUpdates := some true, payments := some true,
                 messages := some true, reminders := some true,
                 marketing := some false }
    ∧ (runUpsert db now uid t pf dI dN none).pushTokens
        = db.pushTokens ++ [mkPushToken db.nextId uid t pf dI dN none (some now) none] := by
  constructor
  · rfl
  · rw [runUpsert_create_eq now pf dI dN none hmiss hlen]

/-- C6 witness: registering a fresh token in the empty store with no
preferences stores the default flags. -/
theorem claim_C6_witness :
    (mkPushToken emptyDB.nextId 1 "expo-token-aaa" none none none none (some 5) none).preferences
        = some { projectUpdates := some true, payments := some true,
                 messages := some true, reminders := some true,
                 marketing := some false }
    ∧ (runUpsert emptyDB 5 1 "expo-token-aaa" none none none none).pushTokens
        = emptyDB.pushTokens
            ++ [mkPushToken emptyDB.nextId 1 "expo-token-aaa" none none none none (some 5) none] :=
  claim_C6_default_preferences emptyDB 5 1 "expo-token-aaa" none none none
    (by decide) (by decide)

/-- C7: unregistration is a total no-op when no row matches, preserves
the row count always (soft delete only), flips `isActive` to false on
the matching row, and every surviving row is an original row or an
original row soft-deleted. -/
theorem claim_C7_deactivate_soft (db : DB) (uid : Nat) (t : String) :
    (findToken db uid t = none → deactivateToken db uid t = db)
    ∧ (deactivateToken db uid t).pushTokens.length = db.pushTokens.length
    ∧ (∀ r, findToken db uid t = some r →
        findToken (deactivateToken db uid t) uid t = some { r with isActive := false })
    ∧ (∀ r2 ∈ (deactivateToken db uid t).pushTokens,
        r2 ∈ db.pushTokens ∨ ∃ r ∈ db.pushTokens, r2 = { r with isActive := false }) := by
  refine ⟨?_, ?_, ?_, ?_⟩
  · intro h0
    have h2 : db.pushTokens.map (fun x =>
        if x.userId == uid && x.token == t then { x with isActive := false } else x)
          = db.pushTokens :=
      map_if_eq_self (fun x => x.userId == uid && x.token == t)
        (fun x => { x with isActive := false }) db.pushTokens
        (findToken_none_all_false h0)
    unfold deactivateToken
    rw [h2]
  · simp [deactivateToken]
  · intro r hr
    have hcond := List.find?_some hr
    have h3 := find?_key_map hr
      (fun x => if x.userId == uid && x.token == t then { x with isActive := false } else x)
      (by intro x
          by_cases hc : (x.userId == uid && x.token == t) = true <;> simp [hc])
    show (db.pushTokens.map _).find? _ = _
    rw [h3]
    simp [hcond]
  · intro r2 hr2
    simp only [deactivateToken, List.mem_map] at hr2
    obtain ⟨s, hs, rfl⟩ := hr2
    by_cases hc : (s.userId == uid && s.token == t) = true
    · right
      exact ⟨s, hs, by simp [hc]⟩
    · left
      simpa [hc] using hs

/-- C7 witness: unregistering an unknown token from a concrete store
changes nothing, and unregistering the stored token soft-deletes it. -/
theorem claim_C7_witness :
    deactivateToken dbW1 2 "zz" = dbW1
    ∧ (deactivateToken dbW1 1 "expo-token-aaa").pushTokens.length
        = dbW1.pushTokens.length := by
  constructor
  · exact (claim_C7_deactivate_soft dbW1 2 "zz").1 (by decide)
  · exact (claim_C7_deactivate_soft dbW1 1 "expo-token-aaa").2.1

/-- C8: no operation of the subsystem ever produces a `delivered`
notification or sets `deliveredAt`: the check holds in every reachable
store. -/
theorem claim_C8_never_delivered (db : DB) (h : Reachable db) :
    noDeliveredCheck db = true := by
  have h2 := reachable_noDelivered h
  unfold noDeliveredCheck
  rw [List.all_eq_true]
  intro n hn
  have h3 := h2 n hn
  simp [h3.2, beq_iff_eq, h3.1]

/-- C8 witness: a store reached by registering a token and dispatching
a notification passes the no-`delivered` check. -/
theorem claim_C8_witness : noDeliveredCheck dbW2 = true :=
  claim_C8_never_delivered dbW2
    (Reachable.dispatchStep dbW1 7 gwAllOk 1 "hello" "body"
      NotificationType.general Priority.normal "default"
      (Reachable.upsert emptyDB 5 1 "expo-token-aaa" none none none none
        Reachable.init))

/-- C9: every stored delivery address fits the `STRING(500)` column,
and registering an address longer than 500 characters is rejected and
stores nothing. -/
theorem claim_C9_token_length_bound (db : DB) (now uid : Nat) (t : String)
    (pf : Option Platform) (dI dN : Option String) (pr : Option Preferences)
    (h : Reachable db) (hlong : tokenColumnLimit < t.length) :
    tokensWithinLimit db = true
    ∧ runUpsert db now uid t pf dI dN pr = db
    ∧ upsertToken db now uid t pf dI dN pr
        = Except.error "value too long for type character varying" := by
  have hfit := reachable_tokensFit h
  have herr : upsertToken db now uid t pf dI dN pr
      = Except.error "value too long for type character varying" := by
    unfold upsertToken
    rw [if_pos hlong]
  refine ⟨?_, ?_, herr⟩
  · unfold tokensWithinLimit
    rw [List.all_eq_true]
    intro r hr
    simpa using hfit r hr
  · unfold runUpsert
    rw [herr]

set_option maxRecDepth 8192 in
/-- C9 witness: the one-token store passes the length check and a
501-character address is rejected there. -/
theorem claim_C9_witness :
    tokensWithinLimit dbW1 = true
    ∧ runUpsert dbW1 9 1 longTok none none none none = dbW1 :=
  ⟨(claim_C9_token_length_bound dbW1 9 1 longTok none none none none
      (Reachable.upsert emptyDB 5 1 "expo-token-aaa" none none none none
        Reachable.init) (by decide)).1,
   (claim_C9_token_length_bound dbW1 9 1 longTok none none none none
      (Reachable.upsert emptyDB 5 1 "expo-token-aaa" none none none none
        Reachable.init) (by decide)).2.1⟩

/-- C10: a row created without an explicit `isActive` value defaults to
active, and a freshly registered token is immediately returned by
`listActiveTokens`. -/
theorem claim_C10_default_active (db : DB) (now uid idv : Nat) (t : String)
    (pf : Option Platform) (dI dN : Option String) (pr : Option Preferences)
    (lu : Option Nat) (prefs : Option Preferences)
    (hmiss : findToken db uid t = none) (hlen : t.length ≤ tokenColumnLimit) :
    (mkPushToken idv uid t pf dI dN none lu prefs).isActive = true
    ∧ mkPushToken db.nextId uid t pf dI dN none (some now) pr
        ∈ listActiveTokens (runUpsert db now uid t pf dI dN pr) uid := by
  constructor
  · rfl
  · rw [runUpsert_create_eq now pf dI dN pr hmiss hlen]
    show _ ∈ List.filter _ _
    refine List.mem_filter.2 ⟨?_, ?_⟩
    · exact List.mem_append.2 (Or.inr (List.mem_singleton.2 rfl))
    · simp [mkPushToken]

/-- C10 witness: the token registered into the empty store is active
and listed. -/
theorem claim_C10_witness :
    (mkPushToken 0 1 "expo-token-aaa" none none none none (some 5) none).isActive = true
    ∧ mkPushToken emptyDB.nextId 1 "expo-token-aaa" none none none none (some 5) none
        ∈ listActiveTokens (runUpsert emptyDB 5 1 "expo-token-aaa" none none none none) 1 :=
  claim_C10_default_active emptyDB 5 1 0 "expo-token-aaa" none none none none
    (some 5) none (by decide) (by decide)

/-- C1: in every reachable store the `(userId, token)` pair is unique,
and re-registering an existing pair updates the row in place — the row
count is unchanged, the id is preserved and `lastUsedAt` is
refreshed. -/
theorem claim_C1_token_pair_unique (db : DB) (now uid : Nat) (t : String)
    (pf : Option Platform) (dI dN : Option String) (pr : Option Preferences)
    (r : PushToken) (h : Reachable db) (hr : findToken db uid t = some r) :
    keysUniqueCheck db.pushTokens = true
    ∧ (runUpsert db now uid t pf dI dN pr).pushTokens.length
        = db.pushTokens.length
    ∧ findToken (runUpsert db now uid t pf dI dN pr) uid t
        = some (applyUpsertFields now pf dI dN pr r)
    ∧ (applyUpsertFields now pf dI dN pr r).id = r.id
    ∧ (applyUpsertFields now pf dI dN pr r).lastUsedAt = some now := by
  have hmem : r ∈ db.pushTokens := List.mem_of_find?_eq_some hr
  have hcond := List.find?_some hr
  have htok : r.token = t := by
    have h2 := hcond
    simp only [Bool.and_eq_true, beq_iff_eq] at h2
    exact h2.2
  have hlen : t.length ≤ tokenColumnLimit := by
    rw [← htok]
    exact reachable_tokensFit h r hmem
  refine ⟨reachable_keysUnique h, ?_, ?_, rfl, rfl⟩
  · rw [runUpsert_update_eq now pf dI dN pr hr hlen]
    simp
  · rw [runUpsert_update_eq now pf dI dN pr hr hlen]
    have h3 := find?_key_map hr
      (fun s => if s.userId == uid && s.token == t then
        applyUpsertFields now pf dI dN pr s else s)
      (by intro x
          by_cases hc : (x.userId == uid && x.token == t) = true <;>
            simp [hc, applyUpsertFields])
    show (db.pushTokens.map _).find? _ = _
    rw [h3]
    simp [hcond]

/-- C1 witness: re-registering the stored pair of the one-token store
keeps one row, the same id, and refreshes `lastUsedAt`. -/
theorem claim_C1_witness :
    keysUniqueCheck dbW1.pushTokens = true
    ∧ (runUpsert dbW1 9 1 "expo-token-aaa" none none none none).pushTokens.length
        = dbW1.pushTokens.length
    ∧ (applyUpsertFields 9 none none none none
          (mkPushToken 0 1 "expo-token-aaa" none none none none (some 5) none)).id
        = (mkPushToken 0 1 "expo-token-aaa" none none none none (some 5) none).id := by
  have h := claim_C1_token_pair_unique dbW1 9 1 "expo-token-aaa" none none none none
    (mkPushToken 0 1 "expo-token-aaa" none none none none (some 5) none)
    (Reachable.upsert emptyDB 5 1 "expo-token-aaa" none none none none
      Reachable.init)
    (by decide)
  exact ⟨h.1, h.2.1, h.2.2.2.1⟩

/-- C4: every dispatch call creates exactly one notification row, and
with zero active tokens the row is the pending row (neither `sent` nor
`failed`, no error message), no batch is submitted, and the outcome is
`noTokens`. -/
theorem claim_C4_zero_tokens (db : DB) (now : Nat) (gw : GatewayFn)
    (uid : Nat) (ti bo : String) (ty : NotificationType) (pr : Priority)
    (ch : String) :
    (dispatch db now gw uid ti bo ty pr ch).1.notifications.length
        = db.notifications.length + 1
    ∧ (listActiveTokens db uid = [] →
        (dispatch db now gw uid ti bo ty pr ch).1.notifications
            = db.notifications ++ [pendingRow db.nextId uid ti bo ty pr ch]
        ∧ (pendingRow db.nextId uid ti bo ty pr ch).status = NotificationStatus.pending
        ∧ (pendingRow db.nextId uid ti bo ty pr ch).errorMessage = none
        ∧ (dispatch db now gw uid ti bo ty pr ch).2.batches = []
        ∧ (dispatch db now gw uid ti bo ty pr ch).2.outcome = DispatchOutcome.noTokens) := by
  constructor
  · simp only [dispatch]
    split
    · simp [createPending]
    · split
      · simp [createPending]
      · show (finalizeTickets _ _ _ _).notifications.length = _
        unfold finalizeTickets
        split <;> simp [updateNotification, createPending]
  · intro hA
    have hAe : (listActiveTokens (createPending db uid ti bo ty pr ch) uid).isEmpty
        = true := by
      show (listActiveTokens db uid).isEmpty = true
      rw [hA]
      rfl
    have hd : dispatch db now gw uid ti bo ty pr ch
        = (createPending db uid ti bo ty pr ch,
           { notificationId := db.nextId, outcome := DispatchOutcome.noTokens,
             batches := [], sentCount := 0, failedCount := 0 }) := by
      simp only [dispatch, hAe, if_true]
    rw [hd]
    exact ⟨rfl, rfl, rfl, rfl, rfl⟩

/-- C4 witness: dispatching to a user with no tokens in the empty store
creates one pending row and performs zero gateway submissions. -/
theorem claim_C4_witness :
    (dispatch emptyDB 3 gwAllOk 9 "t" "b" NotificationType.general
        Priority.normal "default").1.notifications.length
      = emptyDB.notifications.length + 1
    ∧ (dispatch emptyDB 3 gwAllOk 9 "t" "b" NotificationType.general
        Priority.normal "default").2.batches = [] := by
  have h := claim_C4_zero_tokens emptyDB 3 gwAllOk 9 "t" "b"
    NotificationType.general Priority.normal "default"
  exact ⟨h.1, (h.2 (by decide)).2.2.2.1⟩

/-- C5: broadcast creates exactly one notification row per target user
and marks every one of those rows `sent` on completion, whatever the
ticket outcomes were. -/
theorem claim_C5_broadcast_rows (db : DB) (now : Nat) (gw : GatewayFn)
    (userIds : List Nat) (ti bo : String) (ty : NotificationType) (pr : Priority) :
    (broadcastNotification db now gw userIds ti bo ty pr).1.notifications.length
        = db.notifications.length + userIds.length
    ∧ ((broadcastNotification db now gw userIds ti bo ty pr).1.notifications.drop
          db.notifications.length).all
        (fun n => n.status == NotificationStatus.sent) = true := by
  constructor
  · simp [broadcastNotification, List.length_zip]
  · simp only [broadcastNotification, List.map_append]
    rw [show db.notifications.length
          = (db.notifications.map (fun n =>
              if (((List.range userIds.length).map (fun i => db.nextId + i)).contains n.id) = true
              then { n with status := NotificationStatus.sent, sentAt := some now }
              else n)).length from (List.length_map _ _).symm]
    rw [List.drop_left]
    rw [List.all_eq_true]
    intro n hn
    simp only [List.map_map, List.mem_map] at hn
    obtain ⟨p, hp, rfl⟩ := hn
    have hi : p.1 ∈ List.range userIds.length := (List.of_mem_zip hp).1
    have hc : (((List.range userIds.length).map (fun i => db.nextId + i)).contains
        (pendingRow (db.nextId + p.1) p.2 ti bo ty pr "default").id) = true := by
      rw [List.elem_iff]
      exact List.mem_map.2 ⟨p.1, hi, rfl⟩
    simp only [Function.comp_apply]
    rw [if_pos hc]
    rfl

/-- C5 witness: broadcasting to two users over the one-token store
creates two rows and both are `sent`. -/
theorem claim_C5_witness :
    (broadcastNotification dbW1 7 gwAllOk [1, 2] "hi" "all"
        NotificationType.general Priority.normal).1.notifications.length
      = dbW1.notifications.length + 2
    ∧ ((broadcastNotification dbW1 7 gwAllOk [1, 2] "hi" "all"
          NotificationType.general Priority.normal).1.notifications.drop
        dbW1.notifications.length).all
        (fun n => n.status == NotificationStatus.sent) = true :=
  claim_C5_broadcast_rows dbW1 7 gwAllOk [1, 2] "hi" "all"
    NotificationType.general Priority.normal

/-- C2: when a dispatch call actually submits messages and collects
tickets, at least one `ok` ticket finalizes the record `sent` with
`sentAt = now` and the first successful ticket id recorded; all-`error`
tickets finalize it `failed` with the first error message retained. -/
theorem claim_C2_dispatch_finalize (db : DB) (now : Nat) (gw : GatewayFn)
    (uid : Nat) (ti bo : String) (ty : NotificationType) (pr : Priority)
    (ch : String) (hfresh : freshNotifIds db = true)
    (helig : eligibleTokens db uid ty ≠ []) :
    ((∃ rid, Ticket.ok rid ∈ dispatchTickets db gw uid ti bo ty) →
      ∃ n, getNotification (dispatch db now gw uid ti bo ty pr ch).1 db.nextId = some n
        ∧ n.status = NotificationStatus.sent
        ∧ n.sentAt = some now
        ∧ n.expoReceiptId = firstOkId (dispatchTickets db gw uid ti bo ty))
    ∧ ((∀ tk ∈ dispatchTickets db gw uid ti bo ty, tk.isOk = false) →
        dispatchTickets db gw uid ti bo ty ≠ [] →
      ∃ n, getNotification (dispatch db now gw uid ti bo ty pr ch).1 db.nextId = some n
        ∧ n.status = NotificationStatus.failed
        ∧ n.errorMessage = firstErrMsg (dispatchTickets db gw uid ti bo ty)
        ∧ ∃ m, firstErrMsg (dispatchTickets db gw uid ti bo ty) = some m) := by
  have hl : ∀ n ∈ db.notifications, n.id ≠ db.nextId := freshNotifIds_ne hfresh
  have hact : (listActiveTokens (createPending db uid ti bo ty pr ch) uid).isEmpty
      = false := by
    show (listActiveTokens db uid).isEmpty = false
    cases hA : listActiveTokens db uid with
    | nil => exact absurd (by simp [eligibleTokens, hA]) helig
    | cons a l => rfl
  have hel2 : (eligibleTokens (createPending db uid ti bo ty pr ch) uid ty).isEmpty
      = false := by
    show (eligibleTokens db uid ty).isEmpty = false
    cases hE : eligibleTokens db uid ty with
    | nil => exact absurd hE helig
    | cons a l => rfl
  have hdisp : (dispatch db now gw uid ti bo ty pr ch).1
      = finalizeTickets (createPending db uid ti bo ty pr ch) db.nextId now
          (dispatchTickets db gw uid ti bo ty) := by
    simp only [dispatch, hact, hel2, Bool.false_eq_true, if_false]
    rfl
  constructor
  · rintro ⟨rid, hmem⟩
    obtain ⟨rid0, hfok⟩ := firstOkId_isSome_of_mem hmem
    rw [hdisp]
    unfold finalizeTickets
    rw [hfok]
    refine ⟨{ pendingRow db.nextId uid ti bo ty pr ch with status := NotificationStatus.sent, sentAt := some now, expoReceiptId := some rid0 }, ?_, rfl, rfl, rfl⟩
    show ((db.notifications ++ [pendingRow db.nextId uid ti bo ty pr ch]).map
        (fun n => if n.id == db.nextId then { n with status := NotificationStatus.sent, sentAt := some now, expoReceiptId := some rid0 } else n)).find?
        (fun n => n.id == db.nextId) = _
    exact find?_update_append db.notifications db.nextId
      (fun n => { n with status := NotificationStatus.sent, sentAt := some now, expoReceiptId := some rid0 })
      (fun n => rfl) hl (pendingRow db.nextId uid ti bo ty pr ch) rfl
  · intro hall hne
    have hfok : firstOkId (dispatchTickets db gw uid ti bo ty) = none :=
      firstOkId_eq_none_of_all_err hall
    rw [hdisp]
    unfold finalizeTickets
    rw [hfok]
    refine ⟨{ pendingRow db.nextId uid ti bo ty pr ch with status := NotificationStatus.failed, errorMessage := firstErrMsg (dispatchTickets db gw uid ti bo ty) }, ?_, rfl, rfl, firstErrMsg_isSome_of_all_err hne hall⟩
    show ((db.notifications ++ [pendingRow db.nextId uid ti bo ty pr ch]).map
        (fun n => if n.id == db.nextId then { n with status := NotificationStatus.failed, errorMessage := firstErrMsg (dispatchTickets db gw uid ti bo ty) } else n)).find?
        (fun n => n.id == db.nextId) = _
    exact find?_update_append db.notifications db.nextId
      (fun n => { n with status := NotificationStatus.failed, errorMessage := firstErrMsg (dispatchTickets db gw uid ti bo ty) })
      (fun n => rfl) hl (pendingRow db.nextId uid ti bo ty pr ch) rfl

/-- C2 witness: over the one-token store, an all-`ok` gateway yields a
`sent` record with the receipt id, and a transport-failing gateway
yields a `failed` record holding the first error message. -/
theorem claim_C2_witness :
    (∃ n, getNotification (dispatch dbW1 7 gwAllOk 1 "hello" "body"
          NotificationType.general Priority.normal "default").1 dbW1.nextId = some n
        ∧ n.status = NotificationStatus.sent
        ∧ n.sentAt = some 7
        ∧ n.expoReceiptId
            = firstOkId (dispatchTickets dbW1 gwAllOk 1 "hello" "body"
                NotificationType.general))
    ∧ (∃ n, getNotification (dispatch dbW1 7 gwDown 1 "hello" "body"
          NotificationType.general Priority.normal "default").1 dbW1.nextId = some n
        ∧ n.status = NotificationStatus.failed
        ∧ n.errorMessage
            = firstErrMsg (dispatchTickets dbW1 gwDown 1 "hello" "body"
                NotificationType.general)
        ∧ ∃ m, firstErrMsg (dispatchTickets dbW1 gwDown 1 "hello" "body"
            NotificationType.general) = some m) := by
  constructor
  · exact (claim_C2_dispatch_finalize dbW1 7 gwAllOk 1 "hello" "body"
      NotificationType.general Priority.normal "default" (by decide) (by decide)).1
      ⟨"receipt-1", by decide⟩
  · exact (claim_C2_dispatch_finalize dbW1 7 gwDown 1 "hello" "body"
      NotificationType.general Priority.normal "default" (by decide) (by decide)).2
      (by decide) (by decide)

end Claims

end CreateApp
